import Mathlib

/-!
# The `Posts` section (`src/components/sections/posts.js`)

A shallow embedding of the React component `Posts`: the query result is the
input (a list of edges whose `node` may be null), the rendered `posts-grid`
is a list of view-model values, and the mount effect is the list of
`sr.reveal` calls it makes, in call order.

What the component takes from outside (`lodash/kebabCase`, the `Date`
built-in, the reduced-motion hook) is a field of `Env`; `Lodash` and `JSDate`
model the first two on the inputs at which the results evaluate them.
-/

namespace Posts

/-! ## Data model: the shape selected by the GraphQL query -/

/-- The `frontmatter` selection of the query: title, description, date, tags, slug. -/
structure Frontmatter where
  title : String
  description : String
  date : String
  tags : List String
  slug : String
  deriving DecidableEq

/-- A markdown node as selected by the query. -/
structure Node where
  frontmatter : Frontmatter
  deriving DecidableEq

/-- One entry of `data.posts.edges`; `node` is `none` when the record is null. -/
structure Edge where
  node : Option Node
  deriving DecidableEq

/-- What the component takes from outside: `kebabCase` is `lodash/kebabCase`,
`toLocaleDateString date` is `new Date(date).toLocaleDateString()`, and
`prefersReducedMotion` is the value of `usePrefersReducedMotion()`. -/
structure Env where
  kebabCase : String → String
  toLocaleDateString : String → String
  prefersReducedMotion : Bool

/-! ## View model -/

/-- The `<a href={slug} target="_blank" rel="noreferrer">{title}</a>` element. -/
structure TitleLink where
  href : String
  target : String
  rel : String
  text : String
  deriving DecidableEq

/-- One `<li key={i}><Link to=... className="inline-link">#{tag}</Link></li>`;
`to_` is the `to` property of the `Link`. -/
structure TagLink where
  key : Nat
  to_ : String
  className : String
  text : String
  deriving DecidableEq

/-- The icon component placed in `post-icon`. -/
inductive Icon where
  | IconBookmark
  deriving DecidableEq

/-- The `<div className="post-inner">` element returned by `postInner`. -/
structure PostInner where
  icon : Icon
  title : TitleLink
  description : String
  date : String
  tags : List TagLink
  deriving DecidableEq

/-- A `<StyledPost>` element: `ref` is the slot of `revealPosts.current` its
ref callback writes to (absent in the reduced-motion branch), and
`transitionDelay` is the `style` property (absent in the reduced-motion branch). -/
structure StyledPost where
  key : Nat
  ref : Option Nat
  transitionDelay : Option String
  children : PostInner
  deriving DecidableEq

/-- A `<CSSTransition>` wrapper with its single `StyledPost` child. -/
structure CSSTransition where
  key : Nat
  classNames : String
  timeout : Nat
  exit : Bool
  child : StyledPost
  deriving DecidableEq

/-- A child of `<ul className="posts-grid">`. -/
inductive GridItem where
  | plain (post : StyledPost)
  | transition (t : CSSTransition)
  deriving DecidableEq

/-- The card element of a grid item, with or without its wrapper. -/
def GridItem.post : GridItem → StyledPost
  | .plain p => p
  | .transition t => t.child

/-- The transition wrapper of a grid item, when it has one. -/
def GridItem.wrapper : GridItem → Option CSSTransition
  | .plain _ => none
  | .transition t => some t

/-! ## Array helpers -/

/-- The method `Array.prototype.map` with a callback `(element, index)`, counting from `i`. -/
def mapIdxFrom {α β : Type} (f : α → Nat → β) : Nat → List α → List β
  | _, [] => []
  | i, a :: as => f a i :: mapIdxFrom f (i + 1) as

/-- The method `Array.prototype.map` with a callback that may throw: `none` is the
exception, which aborts the whole map. -/
def mapIdxFromM {α β : Type} (f : α → Nat → Option β) : Nat → List α → Option (List β)
  | _, [] => some []
  | i, a :: as =>
    match f a i with
    | none => none
    | some b =>
      match mapIdxFromM f (i + 1) as with
      | none => none
      | some bs => some (b :: bs)

/-! ## The component -/

/-- The constant `const GRID_LIMIT = 3;`. -/
def GRID_LIMIT : Nat := 3

/-- The array `posts`: `data.posts.edges.filter(({ node }) => node)`. -/
def posts (edges : List Edge) : List Edge :=
  edges.filter (fun e => e.node.isSome)

/-- The array `recentPosts`: `posts.slice(0, GRID_LIMIT)`. -/
def recentPosts (edges : List Edge) : List Edge :=
  (posts edges).take GRID_LIMIT

/-- The `post-tags` list: `tags.map((tag, i) => <li key={i}>...)`. -/
def postTags (env : Env) (tags : List String) : List TagLink :=
  mapIdxFrom
    (fun tag i =>
      { key := i
        to_ := "/pensieve/tags/" ++ env.kebabCase tag ++ "/"
        className := "inline-link"
        text := "#" ++ tag })
    0 tags

/-- The function `postInner`; destructuring a null `node` throws (`none`). -/
def postInner (env : Env) : Option Node → Option PostInner
  | none => none
  | some node =>
    let frontmatter := node.frontmatter
    let formattedDate := env.toLocaleDateString frontmatter.date
    some
      { icon := Icon.IconBookmark
        title :=
          { href := frontmatter.slug
            target := "_blank"
            rel := "noreferrer"
            text := frontmatter.title }
        description := frontmatter.description
        date := formattedDate
        tags := postTags env frontmatter.tags }

/-- The `timeout` property of the `CSSTransition` of card `i`. -/
def cssTimeout (i : Nat) : Nat :=
  if i ≥ GRID_LIMIT then (i - GRID_LIMIT) * 300 else 300

/-- The `transitionDelay` style of card `i`. -/
def transitionDelay (i : Nat) : String :=
  toString (if i ≥ GRID_LIMIT then (i - GRID_LIMIT) * 100 else 0) ++ "ms"

/-- The element `<StyledPost key={i}>{inner}</StyledPost>` of the reduced-motion branch. -/
def plainItem (i : Nat) (inner : PostInner) : GridItem :=
  GridItem.plain { key := i, ref := none, transitionDelay := none, children := inner }

/-- The element of the animated branch: a `CSSTransition` around a `StyledPost`
with a ref callback and a `transitionDelay` style. -/
def animatedItem (i : Nat) (inner : PostInner) : GridItem :=
  GridItem.transition
    { key := i
      classNames := "fadeup"
      timeout := cssTimeout i
      exit := false
      child :=
        { key := i
          ref := some i
          transitionDelay := some (transitionDelay i)
          children := inner } }

/-- The callback `({ node }, i) => ...` of the reduced-motion branch. -/
def plainCard (env : Env) (e : Edge) (i : Nat) : Option GridItem :=
  (postInner env e.node).map (plainItem i)

/-- The callback `({ node }, i) => ...` of the animated branch. -/
def animatedCard (env : Env) (e : Edge) (i : Nat) : Option GridItem :=
  (postInner env e.node).map (animatedItem i)

/-- The children of `<ul className="posts-grid">`; `none` when rendering throws.
The guard `recentPosts &&` always passes, an array being truthy even when empty. -/
def postsGrid (env : Env) (edges : List Edge) : Option (List GridItem) :=
  if env.prefersReducedMotion then
    mapIdxFromM (plainCard env) 0 (recentPosts edges)
  else
    mapIdxFromM (animatedCard env) 0 (recentPosts edges)

/-! ## Refs and the mount effect -/

/-- A DOM element that a ref of the component can hold. -/
inductive Element where
  | heading
  | card (key : Nat)
  deriving DecidableEq

/-- The assignment `arr[i] = el` on a JavaScript array; a slot that was never
written is a hole (`none`), and writing past the end leaves holes in between. -/
def arraySet (arr : List (Option Element)) (i : Nat) (el : Element) : List (Option Element) :=
  if i < arr.length then arr.set i (some el)
  else arr ++ List.replicate (i - arr.length) none ++ [some el]

/-- The `current` values of the three refs; `none` is `null` for the two
element refs and a hole for a slot of `revealPosts`. -/
structure Refs where
  revealTitle : Option Element
  revealArchiveLink : Option Element
  revealPosts : List (Option Element)
  deriving DecidableEq

/-- The refs as created: `useRef(null)`, `useRef(null)`, `useRef([])`. -/
def Refs.initial : Refs :=
  { revealTitle := none, revealArchiveLink := none, revealPosts := [] }

/-- The ref callback `el => (revealPosts.current[i] = el)` of one grid item,
run when its element is attached; a card without `ref` leaves the refs alone. -/
def attachCard (refs : Refs) (item : GridItem) : Refs :=
  match item.post.ref with
  | none => refs
  | some i => { refs with revealPosts := arraySet refs.revealPosts i (Element.card item.post.key) }

/-- The refs after the rendered tree is attached: the `h2` carries
`ref={revealTitle}`, each card runs its ref callback in order, and no element
carries `revealArchiveLink`. -/
def attachRefs (grid : List GridItem) : Refs :=
  grid.foldl attachCard { Refs.initial with revealTitle := some Element.heading }

/-- One call `sr.reveal(target, srConfig(delay))`: `target = none` is a null
target, `delay = none` is `srConfig()` without argument. -/
structure RevealCall where
  target : Option Element
  delay : Option Nat
  deriving DecidableEq

/-- The loop `revealPosts.current.forEach((ref, i) => sr.reveal(ref, srConfig(i * 100)))`,
counting from `i`; `forEach` skips holes. -/
def forEachReveal : Nat → List (Option Element) → List RevealCall
  | _, [] => []
  | i, none :: rest => forEachReveal (i + 1) rest
  | i, some ref :: rest =>
    { target := some ref, delay := some (i * 100) } :: forEachReveal (i + 1) rest

/-- The body of `useEffect(() => { ... }, [])`: the `sr.reveal` calls it makes, in order. -/
def useEffect (env : Env) (refs : Refs) : List RevealCall :=
  if env.prefersReducedMotion then []
  else
    [{ target := refs.revealTitle, delay := none },
     { target := refs.revealArchiveLink, delay := none }]
      ++ forEachReveal 0 refs.revealPosts

/-- One mount of the component: the grid it renders and the `sr.reveal` calls
of its mount effect; `none` when rendering throws. -/
def mount (env : Env) (edges : List Edge) : Option (List GridItem × List RevealCall) :=
  (postsGrid env edges).map fun grid => (grid, useEffect env (attachRefs grid))

/-! ## Definitions used to state the results -/

/-- The callback of either branch, as selected by the reduced-motion flag. -/
def cardCallback (env : Env) : Edge → Nat → Option GridItem :=
  if env.prefersReducedMotion then plainCard env else animatedCard env

/-- The element of card `i` in the branch selected by the reduced-motion flag. -/
def gridItem (env : Env) (i : Nat) (inner : PostInner) : GridItem :=
  if env.prefersReducedMotion then plainItem i inner else animatedItem i inner

/-! ## The library functions the component calls

`lodash/kebabCase` and the `Date` built-in are not part of the repository.
They are modelled here on the inputs the results below evaluate them at; a
result `none` means the input lies outside the modelled fragment. -/

namespace Lodash

/-- The character class `[^\x00-\x2f\x3a-\x40\x5b-\x60\x7b-\x7f]` of `reAsciiWord`. -/
def asciiWordChar (c : Char) : Bool :=
  !(c.toNat ≤ 0x2f || (0x3a ≤ c.toNat && c.toNat ≤ 0x40) ||
    (0x5b ≤ c.toNat && c.toNat ≤ 0x60) || (0x7b ≤ c.toNat && c.toNat ≤ 0x7f))

/-- The test `reHasUnicodeWord.test(string)`, with `reHasUnicodeWord` the pattern
`/[a-z][A-Z]|[A-Z]{2}[a-z]|[0-9][a-zA-Z]|[a-zA-Z][0-9]|[^a-zA-Z0-9 ]/`. -/
def hasUnicodeWord : List Char → Bool
  | [] => false
  | c :: rest =>
    !(c.isAlphanum || c == ' ') ||
    (match rest with
      | [] => false
      | d :: rest2 =>
        (c.isLower && d.isUpper) ||
        (c.isUpper && d.isUpper &&
          (match rest2 with
            | [] => false
            | e :: _ => e.isLower)) ||
        (c.isDigit && d.isAlpha) ||
        (c.isAlpha && d.isDigit)) ||
    hasUnicodeWord rest

/-- The matches of `reAsciiWord` (with flag `g`) in a string: the maximal runs
of word characters; `cur` is the run being read, in reverse. -/
def asciiWordsFrom : List Char → List Char → List (List Char)
  | [], cur => if cur.isEmpty then [] else [cur.reverse]
  | c :: cs, cur =>
    if asciiWordChar c then asciiWordsFrom cs (c :: cur)
    else if cur.isEmpty then asciiWordsFrom cs []
    else cur.reverse :: asciiWordsFrom cs []

/-- The function `asciiWords(string)`: `string.match(reAsciiWord) || []`. -/
def asciiWords (s : List Char) : List (List Char) :=
  asciiWordsFrom s []

/-- The function `kebabCase(string)` on the strings for which `words` takes its ASCII path:
the words of the string, lower-cased and joined by `-`. A string on which
`reHasUnicodeWord` matches (in particular any string with a character outside
`[a-zA-Z0-9 ]`, the only ones `deburr` and the apostrophe removal can change)
is outside the model and gives `none`. -/
def kebabCase (s : String) : Option String :=
  if hasUnicodeWord s.toList then none
  else
    some (String.mk
      (List.intercalate ['-'] ((asciiWords s.toList).map (List.map Char.toLower))))

end Lodash

namespace JSDate

/-- The number of milliseconds in a day. -/
def msPerDay : Int := 86400000

/-- The value of a decimal digit. -/
def digit (c : Char) : Option Nat :=
  if c.isDigit then some (c.toNat - 48) else none

/-- The function `DaysInYear(y)` of ECMAScript. -/
def DaysInYear (y : Int) : Int :=
  if y % 4 ≠ 0 then 365 else if y % 100 ≠ 0 then 366 else if y % 400 ≠ 0 then 365 else 366

/-- The function `DayFromYear(y)`: the day number of the first day of year `y`. -/
def DayFromYear (y : Int) : Int :=
  365 * (y - 1970) + (y - 1969) / 4 - (y - 1901) / 100 + (y - 1601) / 400

/-- The function `Day(t) = floor(t / msPerDay)`. -/
def Day (t : Int) : Int := t / msPerDay

/-- Steps from a year `y` not after the year of `day` up to the last year that
starts on or before `day`. -/
def yearSearch (day : Int) : Nat → Int → Int
  | 0, y => y
  | fuel + 1, y => if DayFromYear (y + 1) ≤ day then yearSearch day fuel (y + 1) else y

/-- The function `YearFromTime(t)`: the largest `y` with `TimeFromYear(y) ≤ t`. -/
def YearFromTime (t : Int) : Int :=
  let day := Day t
  let y0 := 1970 + (if 0 ≤ day then day / 366 else day / 365)
  yearSearch day (day.natAbs / 365 + 2) y0

/-- The function `InLeapYear(t)`: whether the year of `t` has 366 days. -/
def InLeapYear (t : Int) : Bool := DaysInYear (YearFromTime t) = 366

/-- The function `DayWithinYear(t) = Day(t) - DayFromYear(YearFromTime(t))`. -/
def DayWithinYear (t : Int) : Int := Day t - DayFromYear (YearFromTime t)

/-- The day within the year on which month `m` (0 = January) starts; `m = 12`
gives the length of the year. -/
def monthStart (leap : Bool) (m : Nat) : Int :=
  let l : Int := if leap then 1 else 0
  match m with
  | 0 => 0 | 1 => 31 | 2 => 59 + l | 3 => 90 + l | 4 => 120 + l | 5 => 151 + l
  | 6 => 181 + l | 7 => 212 + l | 8 => 243 + l | 9 => 273 + l | 10 => 304 + l
  | 11 => 334 + l | _ => 365 + l

/-- Steps from month `m` up to the last month that starts on or before day `d` of the year. -/
def monthSearch (leap : Bool) (d : Int) : Nat → Nat → Nat
  | 0, m => m
  | fuel + 1, m => if monthStart leap (m + 1) ≤ d then monthSearch leap d fuel (m + 1) else m

/-- The function `MonthFromTime(t)`, 0 = January. -/
def MonthFromTime (t : Int) : Nat := monthSearch (InLeapYear t) (DayWithinYear t) 11 0

/-- The function `DateFromTime(t)`: the day of the month, from 1. -/
def DateFromTime (t : Int) : Int :=
  DayWithinYear t - monthStart (InLeapYear t) (MonthFromTime t) + 1

/-- The function `MakeDay(year, month, date)` for a month in `0..11`. -/
def MakeDay (year : Int) (month : Nat) (date : Int) : Int :=
  DayFromYear year + monthStart (decide (DaysInYear year = 366)) month + date - 1

/-- The time value of `new Date(s)` for a date-only string `YYYY-MM-DD` naming
a day of the calendar: midnight of that day in UTC, in milliseconds since the
epoch (ECMAScript reads the date-only form as UTC). Other strings are outside
the model and give `none`. -/
def parse (s : String) : Option Int :=
  match s.toList with
  | [y1, y2, y3, y4, '-', m1, m2, '-', d1, d2] =>
    match digit y1, digit y2, digit y3, digit y4, digit m1, digit m2, digit d1, digit d2 with
    | some a, some b, some c, some d, some e, some f, some g, some h =>
      let year : Int := ((a * 1000 + b * 100 + c * 10 + d : Nat) : Int)
      let month := e * 10 + f
      let date : Int := ((g * 10 + h : Nat) : Int)
      let leap := decide (DaysInYear year = 366)
      if 1 ≤ month ∧ month ≤ 12 ∧ 1 ≤ date ∧
          date ≤ monthStart leap month - monthStart leap (month - 1) then
        some (MakeDay year (month - 1) date * msPerDay)
      else none
    | _, _, _, _, _, _, _, _ => none
  | _ => none

/-- The function `LocalTime(t)` in a time zone whose offset from UTC at `t` is
`offsetMinutes` (negative west of Greenwich, `-300` for UTC-05:00). -/
def LocalTime (offsetMinutes : Int) (t : Int) : Int := t + offsetMinutes * 60000

/-- The expression `new Date(s).toLocaleDateString()` under the locale `en-US`
(numeric month, day and year, `M/D/YYYY`) in a time zone at `offsetMinutes`
from UTC: the calendar day of the local time of the time value. -/
def toLocaleDateString (offsetMinutes : Int) (s : String) : Option String :=
  (parse s).map fun tv =>
    let t := LocalTime offsetMinutes tv
    toString (MonthFromTime t + 1) ++ "/" ++ toString (DateFromTime t) ++ "/"
      ++ toString (YearFromTime t)

end JSDate

/-! ## Sample inputs -/

/-- A query edge holding a post with the given title, date and tags. -/
def samplePost (title date : String) (tags : List String) : Edge :=
  { node := some
      { frontmatter :=
          { title := title
            description := "About " ++ title
            date := date
            tags := tags
            slug := "/pensieve/" ++ title } } }

/-- Five posts in descending date order, with a null record in second place. -/
def sampleEdges : List Edge :=
  [samplePost "e" "2024-03-01" ["Systems Design", "Lean"],
   { node := none },
   samplePost "d" "2024-02-01" [],
   samplePost "c" "2024-01-15" ["Notes"],
   samplePost "b" "2024-01-02" ["Systems Design"],
   samplePost "a" "2023-12-31" []]

/-- An environment built from the two library models, in the time zone UTC. -/
def sampleEnv (reduced : Bool) : Env :=
  { kebabCase := fun s => (Lodash.kebabCase s).getD ""
    toLocaleDateString := fun s => (JSDate.toLocaleDateString 0 s).getD "Invalid Date"
    prefersReducedMotion := reduced }

/-- The time value of a date string, `0` where the model does not parse it. -/
def sampleDateOf (s : String) : Int :=
  (JSDate.parse s).getD 0

/-! ## Lemmas on the array helpers -/

theorem mapIdxFrom_length {α β : Type} (f : α → Nat → β) (k : Nat) (l : List α) :
    (mapIdxFrom f k l).length = l.length := by
  induction l generalizing k with
  | nil => rfl
  | cons a as ih => simp [mapIdxFrom, ih]

theorem mapIdxFrom_map {α β γ : Type} (f : α → Nat → β) (g : β → γ) (k : Nat) (l : List α) :
    (mapIdxFrom f k l).map g = mapIdxFrom (fun a i => g (f a i)) k l := by
  induction l generalizing k with
  | nil => rfl
  | cons a as ih => simp [mapIdxFrom, ih]

theorem mapIdxFrom_const {α β : Type} (h : α → β) (k : Nat) (l : List α) :
    mapIdxFrom (fun a _ => h a) k l = l.map h := by
  induction l generalizing k with
  | nil => rfl
  | cons a as ih => simp [mapIdxFrom, ih]

theorem mapIdxFrom_index {α : Type} (k : Nat) (l : List α) :
    mapIdxFrom (fun _ i => i) k l = List.range' k l.length := by
  induction l generalizing k with
  | nil => rfl
  | cons a as ih => simp [mapIdxFrom, ih, List.range']

theorem mapIdxFrom_congr {α β : Type} (f g : α → Nat → β) (k : Nat) (l : List α)
    (h : ∀ a ∈ l, ∀ i, k ≤ i → i < k + l.length → f a i = g a i) :
    mapIdxFrom f k l = mapIdxFrom g k l := by
  induction l generalizing k with
  | nil => rfl
  | cons a as ih =>
    simp only [mapIdxFrom]
    rw [h a (List.mem_cons_self a as) k (Nat.le_refl k) (by simp), ih (k + 1)]
    intro b hb i h1 h2
    exact h b (List.mem_cons_of_mem a hb) i (by omega) (by simp only [List.length_cons]; omega)

/-- A map whose callback may throw returns `bs` exactly when the callback
returned `bs`, element by element. -/
theorem mapIdxFromM_eq_some {α β : Type} (f : α → Nat → Option β) (k : Nat) (l : List α)
    (bs : List β) : mapIdxFromM f k l = some bs ↔ mapIdxFrom f k l = bs.map some := by
  induction l generalizing k bs with
  | nil => cases bs <;> simp [mapIdxFromM, mapIdxFrom]
  | cons a as ih =>
    simp only [mapIdxFromM, mapIdxFrom]
    cases hf : f a k with
    | none => cases bs <;> simp
    | some b =>
      cases hm : mapIdxFromM f (k + 1) as with
      | none =>
        cases bs with
        | nil => simp
        | cons b2 bs2 =>
          simp only [List.map_cons, List.cons.injEq, Option.some.injEq]
          constructor
          · intro h
            cases h
          · rintro ⟨_, h2⟩
            have h3 := (ih (k + 1) bs2).mpr h2
            rw [hm] at h3
            cases h3
      | some bs1 =>
        have h1 := (ih (k + 1) bs1).mp hm
        cases bs with
        | nil => simp
        | cons b2 bs2 =>
          simp only [Option.some.injEq, List.cons.injEq, List.map_cons, h1]
          constructor
          · rintro ⟨rfl, rfl⟩
            exact ⟨rfl, rfl⟩
          · rintro ⟨rfl, h2⟩
            exact ⟨rfl, List.map_injective_iff.mpr (Option.some_injective β) h2⟩

/-- A map whose callback never throws on the elements of the array does not throw. -/
theorem mapIdxFromM_isSome {α β : Type} (f : α → Nat → Option β) (k : Nat) (l : List α)
    (h : ∀ a ∈ l, ∀ i, ∃ b, f a i = some b) : ∃ bs, mapIdxFromM f k l = some bs := by
  induction l generalizing k with
  | nil => exact ⟨[], rfl⟩
  | cons a as ih =>
    obtain ⟨b, hb⟩ := h a (List.mem_cons_self a as) k
    obtain ⟨bs, hbs⟩ := ih (k + 1) (fun x hx i => h x (List.mem_cons_of_mem a hx) i)
    exact ⟨b :: bs, by simp [mapIdxFromM, hb, hbs]⟩

/-! ## Lemmas on the component -/

theorem posts_length (edges : List Edge) :
    (posts edges).length = edges.countP (fun e => e.node.isSome) := by
  simp [posts, List.countP_eq_length_filter]

theorem recentPosts_length (edges : List Edge) :
    (recentPosts edges).length = min 3 (edges.countP (fun e => e.node.isSome)) := by
  simp [recentPosts, GRID_LIMIT, List.length_take, posts_length]

theorem recentPosts_length_le (edges : List Edge) : (recentPosts edges).length ≤ GRID_LIMIT := by
  simp [recentPosts, List.length_take]

theorem mem_posts_node (edges : List Edge) (e : Edge) (h : e ∈ posts edges) :
    ∃ n, e.node = some n := by
  simp only [posts, List.mem_filter] at h
  exact Option.isSome_iff_exists.mp h.2

theorem mem_recentPosts_node (edges : List Edge) (e : Edge) (h : e ∈ recentPosts edges) :
    ∃ n, e.node = some n :=
  mem_posts_node edges e (List.mem_of_mem_take h)

theorem postsGrid_eq (env : Env) (edges : List Edge) :
    postsGrid env edges = mapIdxFromM (cardCallback env) 0 (recentPosts edges) := by
  unfold postsGrid cardCallback
  cases env.prefersReducedMotion <;> simp

theorem cardCallback_post (env : Env) (e : Edge) (i : Nat) :
    (cardCallback env e i).map (fun g => (g.post.key, g.post.children))
      = (postInner env e.node).map (fun inner => (i, inner)) := by
  unfold cardCallback
  cases env.prefersReducedMotion <;>
    cases h : postInner env e.node <;>
    simp [plainCard, animatedCard, plainItem, animatedItem, GridItem.post, h]

/-- Rendering never throws: every edge that reaches `postInner` has a node. -/
theorem postsGrid_isSome (env : Env) (edges : List Edge) :
    ∃ grid, postsGrid env edges = some grid := by
  rw [postsGrid_eq]
  apply mapIdxFromM_isSome
  intro e he i
  obtain ⟨n, hn⟩ := mem_recentPosts_node edges e he
  unfold cardCallback
  cases env.prefersReducedMotion <;> simp [plainCard, animatedCard, postInner, hn]

theorem postsGrid_items (env : Env) (edges : List Edge) (grid : List GridItem)
    (h : postsGrid env edges = some grid) :
    grid.map some = mapIdxFrom (cardCallback env) 0 (recentPosts edges) := by
  rw [postsGrid_eq] at h
  exact ((mapIdxFromM_eq_some _ _ _ _).mp h).symm

theorem postsGrid_length (env : Env) (edges : List Edge) (grid : List GridItem)
    (h : postsGrid env edges = some grid) : grid.length = (recentPosts edges).length := by
  have h1 := congrArg List.length (postsGrid_items env edges grid h)
  simpa [mapIdxFrom_length] using h1

/-- The contents of the rendered cards are `postInner` of the nodes of `recentPosts`, in order. -/
theorem postsGrid_children (env : Env) (edges : List Edge) (grid : List GridItem)
    (h : postsGrid env edges = some grid) :
    grid.map (fun g => some g.post.children)
      = (recentPosts edges).map (fun e => postInner env e.node) := by
  have h1 := congrArg (List.map (Option.map (fun g => (g.post.key, g.post.children).2)))
    (postsGrid_items env edges grid h)
  rw [mapIdxFrom_map] at h1
  have h2 : (fun (a : Edge) (i : Nat) =>
      Option.map (fun g => (g.post.key, g.post.children).2) (cardCallback env a i))
      = fun a _ => postInner env a.node := by
    funext a i
    have h3 := congrArg (Option.map Prod.snd) (cardCallback_post env a i)
    simpa [Option.map_map, Function.comp_def] using h3
  rw [h2, mapIdxFrom_const] at h1
  simpa [List.map_map, Function.comp_def] using h1

/-- The key of the card at position `i` is `i`. -/
theorem postsGrid_keys (env : Env) (edges : List Edge) (grid : List GridItem)
    (h : postsGrid env edges = some grid) :
    grid.map (fun g => g.post.key) = List.range grid.length := by
  have h1 := congrArg (List.map (Option.map (fun g => (g.post.key, g.post.children).1)))
    (postsGrid_items env edges grid h)
  rw [mapIdxFrom_map] at h1
  have h2 : mapIdxFrom (fun (a : Edge) (i : Nat) =>
      Option.map (fun g => (g.post.key, g.post.children).1) (cardCallback env a i)) 0
        (recentPosts edges)
      = mapIdxFrom (fun _ i => some i) 0 (recentPosts edges) := by
    apply mapIdxFrom_congr
    intro a ha i _ _
    obtain ⟨n, hn⟩ := mem_recentPosts_node edges a ha
    have h3 := congrArg (Option.map Prod.fst) (cardCallback_post env a i)
    simpa [Option.map_map, Function.comp_def, postInner, hn] using h3
  rw [h2, ← mapIdxFrom_map (fun _ i => i) some, mapIdxFrom_index] at h1
  simp only [List.map_map] at h1
  have h4 : grid.map ((Option.map fun g => g.post.key) ∘ some)
      = (grid.map (fun g => g.post.key)).map some := by
    simp [List.map_map, Function.comp_def]
  rw [h4] at h1
  have h5 := List.map_injective_iff.mpr (Option.some_injective Nat) h1
  rw [h5, postsGrid_length env edges grid h, List.range_eq_range']

theorem filterMap_map_some {α β : Type} (f : α → Option β) (l : List α)
    (h : ∀ a ∈ l, ∃ b, f a = some b) : (l.filterMap f).map some = l.map f := by
  induction l with
  | nil => rfl
  | cons a as ih =>
    obtain ⟨b, hb⟩ := h a (List.mem_cons_self a as)
    have ih2 := ih (fun x hx => h x (List.mem_cons_of_mem a hx))
    simp [List.filterMap_cons, hb, ih2]

theorem filter_isSome_map_node (edges : List Edge) :
    (edges.filter (fun e => e.node.isSome)).map (fun e => e.node)
      = (edges.filterMap (fun e => e.node)).map some := by
  induction edges with
  | nil => rfl
  | cons e es ih =>
    cases h : e.node with
    | none => simp [List.filter_cons, List.filterMap_cons, h, ih]
    | some n => simp [List.filter_cons, List.filterMap_cons, h, ih]

/-- The nodes of `recentPosts` are the first three non-null nodes of the input. -/
theorem recentPosts_nodes (edges : List Edge) :
    (recentPosts edges).map (fun e => e.node)
      = ((edges.filterMap (fun e => e.node)).take 3).map some := by
  simp only [recentPosts, posts, GRID_LIMIT, List.map_take, filter_isSome_map_node]

theorem filterMap_map_some_sublist {α β : Type} (f : α → Option β) (l : List α) :
    List.Sublist ((l.filterMap f).map some) (l.map f) := by
  induction l with
  | nil => simp
  | cons a as ih =>
    cases h : f a with
    | none =>
      simp only [List.filterMap_cons, h, List.map_cons]
      exact List.Sublist.cons _ ih
    | some b =>
      simp only [List.filterMap_cons, h, List.map_cons]
      exact List.Sublist.cons₂ _ ih

theorem mapIdxFrom_card (item : Nat → PostInner → GridItem) (env : Env) (l : List Edge)
    (inners : List PostInner) (k : Nat)
    (h : inners.map some = l.map (fun e => postInner env e.node)) :
    mapIdxFrom (fun e i => (postInner env e.node).map (item i)) k l
      = (mapIdxFrom (fun inner i => item i inner) k inners).map some := by
  induction l generalizing inners k with
  | nil =>
    cases inners with
    | nil => rfl
    | cons a as => simp at h
  | cons e es ih =>
    cases inners with
    | nil => simp at h
    | cons a as =>
      simp only [List.map_cons, List.cons.injEq] at h
      simp only [mapIdxFrom, List.map_cons, ← h.1, Option.map_some', ih as (k + 1) h.2]

/-- Closed form of the grid: the contents `inners` are `postInner` of the nodes
of `recentPosts`, and card `i` wraps `inners[i]` as its branch prescribes. -/
theorem postsGrid_closed (env : Env) (edges : List Edge) :
    ∃ inners : List PostInner,
      inners.map some = (recentPosts edges).map (fun e => postInner env e.node) ∧
      postsGrid env edges = some (mapIdxFrom (fun inner i => gridItem env i inner) 0 inners) := by
  refine ⟨(recentPosts edges).filterMap (fun e => postInner env e.node), ?_, ?_⟩
  · apply filterMap_map_some
    intro e he
    obtain ⟨n, hn⟩ := mem_recentPosts_node edges e he
    exact ⟨_, by rw [hn]; rfl⟩
  · have hin : ((recentPosts edges).filterMap (fun e => postInner env e.node)).map some
        = (recentPosts edges).map (fun e => postInner env e.node) := by
      apply filterMap_map_some
      intro e he
      obtain ⟨n, hn⟩ := mem_recentPosts_node edges e he
      exact ⟨_, by rw [hn]; rfl⟩
    rw [postsGrid_eq, mapIdxFromM_eq_some]
    have h1 := mapIdxFrom_card (gridItem env) env (recentPosts edges) _ 0 hin
    rw [← h1]
    unfold cardCallback gridItem
    cases env.prefersReducedMotion <;> rfl

theorem mapIdxFrom_mem {α β : Type} (f : α → Nat → β) (k : Nat) (l : List α) (b : β)
    (h : b ∈ mapIdxFrom f k l) : ∃ a i, a ∈ l ∧ k ≤ i ∧ i < k + l.length ∧ b = f a i := by
  induction l generalizing k with
  | nil => simp [mapIdxFrom] at h
  | cons a as ih =>
    simp only [mapIdxFrom, List.mem_cons] at h
    rcases h with h | h
    · exact ⟨a, k, List.mem_cons_self a as, Nat.le_refl k, by simp, h⟩
    · obtain ⟨x, i, hx, h1, h2, h3⟩ := ih (k + 1) h
      exact ⟨x, i, List.mem_cons_of_mem a hx, by omega,
        by simp only [List.length_cons]; omega, h3⟩

theorem postInner_flag (kebabCase toLocaleDateString : String → String) (b1 b2 : Bool)
    (n : Option Node) :
    postInner ⟨kebabCase, toLocaleDateString, b1⟩ n
      = postInner ⟨kebabCase, toLocaleDateString, b2⟩ n := by
  cases n <;> rfl

theorem cssTimeout_of_lt (i : Nat) (h : i < GRID_LIMIT) : cssTimeout i = 300 := by
  unfold cssTimeout
  rw [if_neg (by omega)]

theorem transitionDelay_of_lt (i : Nat) (h : i < GRID_LIMIT) : transitionDelay i = "0ms" := by
  unfold transitionDelay
  rw [if_neg (by omega)]
  rfl

theorem arraySet_length (arr : List (Option Element)) (el : Element) :
    arraySet arr arr.length el = arr ++ [some el] := by
  simp [arraySet]

theorem attach_animated (inners : List PostInner) (k : Nat) (refs : Refs)
    (h : refs.revealPosts.length = k) :
    List.foldl attachCard refs (mapIdxFrom (fun inner i => animatedItem i inner) k inners)
      = { refs with
          revealPosts :=
            refs.revealPosts ++ (List.range' k inners.length).map (fun i => some (Element.card i)) } := by
  induction inners generalizing k refs with
  | nil => simp [mapIdxFrom]
  | cons a as ih =>
    simp only [mapIdxFrom, List.foldl_cons]
    have h1 : attachCard refs (animatedItem k a)
        = { refs with revealPosts := refs.revealPosts ++ [some (Element.card k)] } := by
      simp only [attachCard, animatedItem, GridItem.post]
      rw [← h, arraySet_length]
    rw [h1, ih (k + 1) _ (by simp [h])]
    simp [List.range']

theorem forEachReveal_range (k n : Nat) :
    forEachReveal k ((List.range' k n).map (fun i => some (Element.card i)))
      = (List.range' k n).map
          (fun i => ({ target := some (Element.card i), delay := some (i * 100) } : RevealCall)) := by
  induction n generalizing k with
  | zero => rfl
  | succ n ih => simp [List.range', forEachReveal, ih (k + 1)]

theorem postTags_to (env : Env) (tags : List String) :
    (postTags env tags).map (fun l => l.to_)
      = tags.map (fun tag => "/pensieve/tags/" ++ env.kebabCase tag ++ "/") := by
  unfold postTags
  rw [mapIdxFrom_map, mapIdxFrom_const]

/-! ## The claims -/

/-- C1: for every list of query edges and in either branch (reduced motion or
animated), rendering succeeds and the number of cards is `min 3 k`, where `k`
is the number of edges whose node is non-null. -/
theorem C1_card_count (kebabCase toLocaleDateString : String → String) (edges : List Edge) :
    (postsGrid ⟨kebabCase, toLocaleDateString, true⟩ edges).map List.length
        = some (min 3 (edges.countP (fun e => e.node.isSome))) ∧
    (postsGrid ⟨kebabCase, toLocaleDateString, false⟩ edges).map List.length
        = some (min 3 (edges.countP (fun e => e.node.isSome))) := by
  constructor
  · obtain ⟨grid, hg⟩ := postsGrid_isSome ⟨kebabCase, toLocaleDateString, true⟩ edges
    rw [hg, Option.map_some', postsGrid_length _ edges grid hg, recentPosts_length]
  · obtain ⟨grid, hg⟩ := postsGrid_isSome ⟨kebabCase, toLocaleDateString, false⟩ edges
    rw [hg, Option.map_some', postsGrid_length _ edges grid hg, recentPosts_length]

/-- C2: the rendered cards are built, in order, from the first `min 3 k`
non-null records of the input: card `i` carries the title link (`href` the
slug, `target="_blank"`, text the title) and the description of the `i`-th
valid record, and these records appear in the input in the same relative order. -/
theorem C2_cards_follow_input_order (env : Env) (edges : List Edge) :
    ∃ grid, postsGrid env edges = some grid ∧
      grid.map (fun g => (g.post.children.title, g.post.children.description))
        = ((edges.filterMap (fun e => e.node)).take 3).map
            (fun n =>
              (({ href := n.frontmatter.slug, target := "_blank", rel := "noreferrer",
                  text := n.frontmatter.title } : TitleLink),
               n.frontmatter.description)) ∧
      ((edges.filterMap (fun e => e.node)).take 3).length
        = min 3 (edges.countP (fun e => e.node.isSome)) ∧
      List.Sublist (((edges.filterMap (fun e => e.node)).take 3).map some)
        (edges.map (fun e => e.node)) := by
  obtain ⟨grid, hg⟩ := postsGrid_isSome env edges
  refine ⟨grid, hg, ?_, ?_, ?_⟩
  · have h1 := postsGrid_children env edges grid hg
    have h2 : (recentPosts edges).map (fun e => postInner env e.node)
        = ((recentPosts edges).map (fun e => e.node)).map (postInner env) := by
      simp [List.map_map, Function.comp_def]
    rw [h2, recentPosts_nodes] at h1
    have h3 := congrArg
      (List.map (Option.map (fun (c : PostInner) => (c.title, c.description)))) h1
    simp only [List.map_map, Function.comp_def, Option.map_some', postInner] at h3
    exact List.map_injective_iff.mpr (Option.some_injective _)
      (by simpa [List.map_map, Function.comp_def] using h3)
  · have h1 := congrArg List.length (recentPosts_nodes edges)
    simp only [List.length_map] at h1
    rw [← h1, recentPosts_length]
  · exact List.Sublist.trans
      (List.Sublist.map some (List.take_sublist 3 _))
      (filterMap_map_some_sublist (fun e => e.node) edges)

/-- C3: null records are removed before the list is cut to three: the rendered
records are `take 3 (filter valid edges)`, every one of them has a node, and on
`[null, a, b, c]` the three cards `a, b, c` are rendered, where cutting first
and filtering afterwards would keep only `a, b`. -/
theorem C3_filter_before_slice (env : Env) (edges : List Edge) (a b c : Node) :
    (∃ grid, postsGrid env edges = some grid ∧
      grid.map (fun g => some g.post.children)
        = ((edges.filter (fun e => e.node.isSome)).take 3).map
            (fun e => postInner env e.node)) ∧
    ((edges.filter (fun e => e.node.isSome)).take 3).all (fun e => e.node.isSome) = true ∧
    (postsGrid env [⟨none⟩, ⟨some a⟩, ⟨some b⟩, ⟨some c⟩]).map
        (List.map (fun g => some g.post.children))
      = some [postInner env (some a), postInner env (some b), postInner env (some c)] ∧
    (([⟨none⟩, ⟨some a⟩, ⟨some b⟩, ⟨some c⟩] : List Edge).take 3).filter
        (fun e => e.node.isSome)
      = [⟨some a⟩, ⟨some b⟩] := by
  refine ⟨?_, ?_, ?_, ?_⟩
  · obtain ⟨grid, hg⟩ := postsGrid_isSome env edges
    exact ⟨grid, hg, postsGrid_children env edges grid hg⟩
  · rw [List.all_eq_true]
    intro e he
    exact (List.mem_filter.mp (List.mem_of_mem_take he)).2
  · obtain ⟨grid, hg⟩ := postsGrid_isSome env [⟨none⟩, ⟨some a⟩, ⟨some b⟩, ⟨some c⟩]
    rw [hg, Option.map_some', postsGrid_children env _ grid hg]
    rfl
  · rfl

/-- C4: when the valid records of the input are sorted by date, latest first
(for any linear order `dateOf` puts on date strings), the rendered cards are
built from the first three valid records, and every one of those is at least as
recent as every valid record that is not rendered. -/
theorem C4_rendered_are_most_recent {δ : Type} [LinearOrder δ] (dateOf : String → δ)
    (env : Env) (edges : List Edge)
    (hsorted : List.Sorted (fun d1 d2 => d1 ≥ d2)
      ((edges.filterMap (fun e => e.node)).map (fun n => dateOf n.frontmatter.date))) :
    ∃ grid, postsGrid env edges = some grid ∧
      grid.map (fun g => some g.post.children)
        = ((edges.filterMap (fun e => e.node)).take 3).map (fun n => postInner env (some n)) ∧
      (∀ p ∈ (edges.filterMap (fun e => e.node)).take 3,
        ∀ q ∈ (edges.filterMap (fun e => e.node)).drop 3,
          dateOf p.frontmatter.date ≥ dateOf q.frontmatter.date) ∧
      (∀ p ∈ (edges.filterMap (fun e => e.node)).take 3,
        ∀ q ∈ edges.filterMap (fun e => e.node),
          q ∉ (edges.filterMap (fun e => e.node)).take 3 →
            dateOf p.frontmatter.date ≥ dateOf q.frontmatter.date) := by
  obtain ⟨grid, hg⟩ := postsGrid_isSome env edges
  have hpair : ∀ p ∈ (edges.filterMap (fun e => e.node)).take 3,
      ∀ q ∈ (edges.filterMap (fun e => e.node)).drop 3,
        dateOf p.frontmatter.date ≥ dateOf q.frontmatter.date := by
    have h1 : List.Pairwise
        (fun (p q : Node) => dateOf p.frontmatter.date ≥ dateOf q.frontmatter.date)
        (edges.filterMap (fun e => e.node)) := by
      have h0 := hsorted
      unfold List.Sorted at h0
      rw [List.pairwise_map] at h0
      exact h0
    rw [← List.take_append_drop 3 (edges.filterMap (fun e => e.node)),
      List.pairwise_append] at h1
    exact h1.2.2
  refine ⟨grid, hg, ?_, hpair, ?_⟩
  · have h1 := postsGrid_children env edges grid hg
    have h2 : (recentPosts edges).map (fun e => postInner env e.node)
        = ((recentPosts edges).map (fun e => e.node)).map (postInner env) := by
      simp [List.map_map, Function.comp_def]
    rw [h2, recentPosts_nodes] at h1
    simpa [List.map_map, Function.comp_def] using h1
  · intro p hp q hq hnot
    apply hpair p hp q
    rw [← List.take_append_drop 3 (edges.filterMap (fun e => e.node)), List.mem_append] at hq
    rcases hq with hq | hq
    · exact absurd hq hnot
    · exact hq

/-- C5: with reduced motion, the mount effect makes no `sr.reveal` call, and
all `min 3 k` cards are rendered as plain cards: no transition wrapper, no
transition delay, no ref. -/
theorem C5_reduced_motion (env : Env) (edges : List Edge)
    (hreduced : env.prefersReducedMotion = true) :
    ∃ grid, mount env edges = some (grid, []) ∧
      grid.length = min 3 (edges.countP (fun e => e.node.isSome)) ∧
      grid.all (fun g =>
        g.wrapper.isNone && g.post.transitionDelay.isNone && g.post.ref.isNone) = true := by
  obtain ⟨inners, _, hgrid⟩ := postsGrid_closed env edges
  refine ⟨mapIdxFrom (fun inner i => gridItem env i inner) 0 inners, ?_, ?_, ?_⟩
  · simp [mount, hgrid, useEffect, hreduced]
  · rw [postsGrid_length env edges _ hgrid, recentPosts_length]
  · rw [List.all_eq_true]
    intro g hg
    obtain ⟨a, i, _, _, _, rfl⟩ := mapIdxFrom_mem _ _ _ _ hg
    simp [gridItem, hreduced, plainItem, GridItem.wrapper, GridItem.post]

/-- C6, as the code has it: without reduced motion, one mount that renders `n`
cards makes exactly `n + 2` calls of `sr.reveal`, in this order: one with the
heading, one with the current value of `revealArchiveLink` (a ref that no
element carries, so the value is null), and one with each card `i`, configured
by `srConfig(i * 100)`. -/
theorem C6_reveal_calls (env : Env) (edges : List Edge)
    (hanimated : env.prefersReducedMotion = false) :
    ∃ grid calls, mount env edges = some (grid, calls) ∧
      grid.length = min 3 (edges.countP (fun e => e.node.isSome)) ∧
      calls =
        [{ target := some Element.heading, delay := none }, { target := none, delay := none }]
          ++ (List.range grid.length).map
              (fun i => ({ target := some (Element.card i), delay := some (i * 100) } : RevealCall)) ∧
      calls.length = grid.length + 2 := by
  obtain ⟨inners, _, hgrid⟩ := postsGrid_closed env edges
  have hitem : (fun (inner : PostInner) (i : Nat) => gridItem env i inner)
      = fun inner i => animatedItem i inner := by
    funext inner i
    simp [gridItem, hanimated]
  rw [hitem] at hgrid
  have hlen : (mapIdxFrom (fun (inner : PostInner) (i : Nat) => animatedItem i inner) 0 inners).length
      = inners.length := mapIdxFrom_length _ _ _
  refine ⟨mapIdxFrom (fun inner i => animatedItem i inner) 0 inners,
    [{ target := some Element.heading, delay := none }, { target := none, delay := none }]
      ++ (List.range
            (mapIdxFrom (fun (inner : PostInner) (i : Nat) => animatedItem i inner) 0 inners).length).map
          (fun i => ({ target := some (Element.card i), delay := some (i * 100) } : RevealCall)),
    ?_, ?_, rfl, ?_⟩
  · simp only [mount, hgrid, Option.map_some', useEffect, hanimated, Bool.false_eq_true,
      if_false, attachRefs]
    rw [attach_animated inners 0
      { Refs.initial with revealTitle := some Element.heading } rfl]
    simp only [Refs.initial, List.nil_append, forEachReveal_range, hlen, List.range_eq_range']
  · rw [postsGrid_length env edges _ hgrid, recentPosts_length]
  · simp only [List.length_append, List.length_cons, List.length_nil, List.length_map,
      List.length_range]
    omega

/-- C4 on the sample input: its dates are sorted latest first, so its three
cards are at least as recent as the two valid records left out. -/
theorem C4_rendered_are_most_recent_witness :
    List.Sorted (fun d1 d2 => d1 ≥ d2)
        ((sampleEdges.filterMap (fun e => e.node)).map
          (fun n => sampleDateOf n.frontmatter.date)) ∧
      ∃ grid, postsGrid (sampleEnv false) sampleEdges = some grid ∧
        grid.map (fun g => some g.post.children)
          = ((sampleEdges.filterMap (fun e => e.node)).take 3).map
              (fun n => postInner (sampleEnv false) (some n)) ∧
        (∀ p ∈ (sampleEdges.filterMap (fun e => e.node)).take 3,
          ∀ q ∈ (sampleEdges.filterMap (fun e => e.node)).drop 3,
            sampleDateOf p.frontmatter.date ≥ sampleDateOf q.frontmatter.date) ∧
        (∀ p ∈ (sampleEdges.filterMap (fun e => e.node)).take 3,
          ∀ q ∈ sampleEdges.filterMap (fun e => e.node),
            q ∉ (sampleEdges.filterMap (fun e => e.node)).take 3 →
              sampleDateOf p.frontmatter.date ≥ sampleDateOf q.frontmatter.date) :=
  ⟨by decide, C4_rendered_are_most_recent sampleDateOf (sampleEnv false) sampleEdges (by decide)⟩

/-- C5 on the sample input with reduced motion: three plain cards, no call. -/
theorem C5_reduced_motion_witness :
    (sampleEnv true).prefersReducedMotion = true ∧
      ∃ grid, mount (sampleEnv true) sampleEdges = some (grid, []) ∧
        grid.length = min 3 (sampleEdges.countP (fun e => e.node.isSome)) ∧
        grid.all (fun g =>
          g.wrapper.isNone && g.post.transitionDelay.isNone && g.post.ref.isNone) = true :=
  ⟨rfl, C5_reduced_motion (sampleEnv true) sampleEdges rfl⟩

/-- C6 as stated fails: on the sample input without reduced motion, three cards
are rendered and the mount makes five `sr.reveal` calls, not four; the second
call has a null target. -/
theorem C6_counterexample :
    (mount (sampleEnv false) sampleEdges).map (fun r => (r.1.length, r.2.length)) = some (3, 5) ∧
      (mount (sampleEnv false) sampleEdges).map
          (fun r => decide (r.2.length = r.1.length + 1)) = some false ∧
      (mount (sampleEnv false) sampleEdges).map (fun r => r.2.map (fun c => c.target))
        = some [some Element.heading, none, some (Element.card 0), some (Element.card 1),
            some (Element.card 2)] := by
  decide

/-- C6 on the sample input without reduced motion. -/
theorem C6_reveal_calls_witness :
    (sampleEnv false).prefersReducedMotion = false ∧
      ∃ grid calls, mount (sampleEnv false) sampleEdges = some (grid, calls) ∧
        grid.length = min 3 (sampleEdges.countP (fun e => e.node.isSome)) ∧
        calls =
          [{ target := some Element.heading, delay := none }, { target := none, delay := none }]
            ++ (List.range grid.length).map
                (fun i =>
                  ({ target := some (Element.card i), delay := some (i * 100) } : RevealCall)) ∧
        calls.length = grid.length + 2 :=
  ⟨rfl, C6_reveal_calls (sampleEnv false) sampleEdges rfl⟩

/-- C7: for an environment whose `kebabCase` is lodash's, every rendered card
has one tag link per tag of its record, in the record's tag order, with path
`/pensieve/tags/` followed by the kebab-case of the tag and `/`; no tags give
no links; and the tag `Systems Design` gives `/pensieve/tags/systems-design/`. -/
theorem C7_tag_links (env : Env) (edges : List Edge)
    (hk : ∀ s w, Lodash.kebabCase s = some w → env.kebabCase s = w) :
    (∃ grid, postsGrid env edges = some grid ∧
      grid.map (fun g => g.post.children.tags.map (fun l => l.to_))
        = ((edges.filterMap (fun e => e.node)).take 3).map
            (fun n => n.frontmatter.tags.map
              (fun tag => "/pensieve/tags/" ++ env.kebabCase tag ++ "/"))) ∧
    (∀ tags : List String,
      (postTags env tags).map (fun l => l.to_)
          = tags.map (fun tag => "/pensieve/tags/" ++ env.kebabCase tag ++ "/") ∧
        (postTags env tags).length = tags.length) ∧
    postTags env [] = [] ∧
    Lodash.kebabCase "Systems Design" = some "systems-design" ∧
    (postTags env ["Systems Design"]).map (fun l => l.to_)
      = ["/pensieve/tags/systems-design/"] := by
  refine ⟨?_, ?_, rfl, by decide, ?_⟩
  · obtain ⟨grid, hg⟩ := postsGrid_isSome env edges
    refine ⟨grid, hg, ?_⟩
    have h1 := postsGrid_children env edges grid hg
    have h2 : (recentPosts edges).map (fun e => postInner env e.node)
        = ((recentPosts edges).map (fun e => e.node)).map (postInner env) := by
      simp [List.map_map, Function.comp_def]
    rw [h2, recentPosts_nodes] at h1
    have h3 := congrArg
      (List.map (Option.map (fun (c : PostInner) => c.tags.map (fun l => l.to_)))) h1
    simp only [List.map_map, Function.comp_def, Option.map_some', postInner, postTags_to] at h3
    exact List.map_injective_iff.mpr (Option.some_injective _)
      (by simpa [List.map_map, Function.comp_def] using h3)
  · intro tags
    exact ⟨postTags_to env tags, by simp [postTags, mapIdxFrom_length]⟩
  · rw [postTags_to, List.map_cons, List.map_nil,
      hk "Systems Design" "systems-design" (by decide)]
    rfl

/-- C7 on the sample input, whose environment takes `kebabCase` from the model of lodash. -/
theorem C7_tag_links_witness :
    (∀ s w, Lodash.kebabCase s = some w → (sampleEnv false).kebabCase s = w) ∧
      (postTags (sampleEnv false) ["Systems Design"]).map (fun l => l.to_)
        = ["/pensieve/tags/systems-design/"] :=
  ⟨fun s w h => by simp [sampleEnv, h],
   (C7_tag_links (sampleEnv false) sampleEdges
      (fun s w h => by simp [sampleEnv, h])).2.2.2.2⟩

/-- C8, evaluated: the date shown on a card is what
`new Date(date).toLocaleDateString()` returns, and for the date `2024-01-02`
under `en-US` that is `1/2/2024` in UTC but `1/1/2024` in the time zone
UTC-05:00, the day before the post's date. -/
theorem C8_date_west_of_utc (env : Env) (node : Node) :
    (postInner env (some node)).map (fun c => c.date)
        = some (env.toLocaleDateString node.frontmatter.date) ∧
      JSDate.parse "2024-01-02" = some 1704153600000 ∧
      JSDate.toLocaleDateString 0 "2024-01-02" = some "1/2/2024" ∧
      JSDate.toLocaleDateString (-300) "2024-01-02" = some "1/1/2024" :=
  ⟨rfl, by decide, by decide, by decide⟩

/-- C9: in either branch every rendered card has an index (its key, equal to
its position) below `GRID_LIMIT = 3`, so the test `i >= GRID_LIMIT` is false at
every rendered index, and in the animated branch every card has `timeout` 300
and `transitionDelay` `0ms`. -/
theorem C9_stagger_branch_unreachable (kebabCase toLocaleDateString : String → String)
    (reduced : Bool) (edges : List Edge) :
    (∃ grid, postsGrid ⟨kebabCase, toLocaleDateString, reduced⟩ edges = some grid ∧
      grid.length ≤ GRID_LIMIT ∧
      grid.map (fun g => g.post.key) = List.range grid.length ∧
      ∀ g ∈ grid, g.post.key < GRID_LIMIT ∧ decide (g.post.key ≥ GRID_LIMIT) = false ∧
        cssTimeout g.post.key = 300 ∧ transitionDelay g.post.key = "0ms") ∧
    (∃ grid, postsGrid ⟨kebabCase, toLocaleDateString, false⟩ edges = some grid ∧
      ∀ g ∈ grid, g.wrapper.map (fun t => t.timeout) = some 300 ∧
        g.post.transitionDelay = some "0ms") := by
  constructor
  · obtain ⟨grid, hg⟩ := postsGrid_isSome ⟨kebabCase, toLocaleDateString, reduced⟩ edges
    have hlen : grid.length ≤ GRID_LIMIT := by
      rw [postsGrid_length _ edges grid hg]
      exact recentPosts_length_le edges
    have hkeys := postsGrid_keys _ edges grid hg
    refine ⟨grid, hg, hlen, hkeys, ?_⟩
    intro g hgm
    have hk : g.post.key ∈ List.range grid.length := by
      rw [← hkeys]
      exact List.mem_map_of_mem (fun g => g.post.key) hgm
    have hlt : g.post.key < GRID_LIMIT := by
      have := List.mem_range.mp hk
      omega
    refine ⟨hlt, ?_, cssTimeout_of_lt _ hlt, transitionDelay_of_lt _ hlt⟩
    simp only [ge_iff_le, decide_eq_false_iff_not]
    omega
  · obtain ⟨inners, _, hgrid⟩ := postsGrid_closed ⟨kebabCase, toLocaleDateString, false⟩ edges
    refine ⟨mapIdxFrom
      (fun inner i => gridItem ⟨kebabCase, toLocaleDateString, false⟩ i inner) 0 inners,
      hgrid, ?_⟩
    intro g hgm
    obtain ⟨a, i, _, _, hi, rfl⟩ := mapIdxFrom_mem _ _ _ _ hgm
    have hlen := postsGrid_length _ edges _ hgrid
    rw [mapIdxFrom_length] at hlen
    have hle := recentPosts_length_le edges
    have hlt : i < GRID_LIMIT := by omega
    simp [gridItem, animatedItem, GridItem.wrapper, GridItem.post, cssTimeout_of_lt i hlt,
      transitionDelay_of_lt i hlt]

/-- C10: the two branches render the same cards: with a common list `inners`
of card contents (`postInner` of the nodes of `recentPosts`, in order), the
reduced-motion grid is `plainItem i inners[i]` and the animated grid is
`animatedItem i inners[i]`, so keys and contents agree position by position
and only the wrapper, the ref and the transition-delay style differ. -/
theorem C10_branches_render_same_content (kebabCase toLocaleDateString : String → String)
    (edges : List Edge) :
    ∃ inners : List PostInner,
      inners.map some
        = ((edges.filter (fun e => e.node.isSome)).take 3).map
            (fun e => postInner ⟨kebabCase, toLocaleDateString, true⟩ e.node) ∧
      postsGrid ⟨kebabCase, toLocaleDateString, true⟩ edges
        = some (mapIdxFrom (fun inner i => plainItem i inner) 0 inners) ∧
      postsGrid ⟨kebabCase, toLocaleDateString, false⟩ edges
        = some (mapIdxFrom (fun inner i => animatedItem i inner) 0 inners) ∧
      (mapIdxFrom (fun inner i => plainItem i inner) 0 inners).map (fun g => g.post.children)
        = inners ∧
      (mapIdxFrom (fun inner i => animatedItem i inner) 0 inners).map (fun g => g.post.children)
        = inners ∧
      (postsGrid ⟨kebabCase, toLocaleDateString, true⟩ edges).map
          (List.map (fun g => (g.post.key, g.post.children)))
        = (postsGrid ⟨kebabCase, toLocaleDateString, false⟩ edges).map
            (List.map (fun g => (g.post.key, g.post.children))) := by
  obtain ⟨inners, hin, hgridR⟩ := postsGrid_closed ⟨kebabCase, toLocaleDateString, true⟩ edges
  obtain ⟨inners2, hin2, hgridA⟩ := postsGrid_closed ⟨kebabCase, toLocaleDateString, false⟩ edges
  have heq : inners2 = inners := by
    apply List.map_injective_iff.mpr (Option.some_injective PostInner)
    rw [hin, hin2]
    exact List.map_congr_left
      (fun e _ => postInner_flag kebabCase toLocaleDateString false true e.node)
  subst heq
  have hR : (fun (inner : PostInner) (i : Nat) =>
      gridItem ⟨kebabCase, toLocaleDateString, true⟩ i inner)
      = fun inner i => plainItem i inner := by
    funext inner i
    simp [gridItem]
  have hA : (fun (inner : PostInner) (i : Nat) =>
      gridItem ⟨kebabCase, toLocaleDateString, false⟩ i inner)
      = fun inner i => animatedItem i inner := by
    funext inner i
    simp [gridItem]
  rw [hR] at hgridR
  rw [hA] at hgridA
  have hcR : (mapIdxFrom (fun inner i => plainItem i inner) 0 inners2).map
      (fun g => g.post.children) = inners2 := by
    rw [mapIdxFrom_map]
    simp only [plainItem, GridItem.post]
    rw [mapIdxFrom_const]
    simp
  have hcA : (mapIdxFrom (fun inner i => animatedItem i inner) 0 inners2).map
      (fun g => g.post.children) = inners2 := by
    rw [mapIdxFrom_map]
    simp only [animatedItem, GridItem.post]
    rw [mapIdxFrom_const]
    simp
  refine ⟨inners2, hin, hgridR, hgridA, hcR, hcA, ?_⟩
  rw [hgridR, hgridA]
  simp only [Option.map_some', mapIdxFrom_map, plainItem, animatedItem, GridItem.post]

end Posts
